import Mathlib

/-!
# BatteryPricePro — verification of the pricing engine

Shallow embedding of the repository's core: the reference catalog
(`battery_data.py`, `get_battery_data`) and the pricing engine
(`interpolation.py`, `interpolate_price`).  Machine floats of the source are
modelled as exact rationals (`ℚ`); Python's `int(np.ceil(x))` on a float
quotient is modelled as `⌈·⌉ : ℚ → ℤ`.  The `ValueError` raised on an empty
voltage subset is modelled with `Except`.  `pandas.sort_values` on the small
frames involved behaves as a stable sort, modelled by `List.insertionSort`.
Division by zero follows Lean's convention `x / 0 = 0`; it is only reachable
for catalogs with non-positive energy entries.
-/

set_option maxRecDepth 8000
set_option maxHeartbeats 1000000

namespace BatteryPricePro

/-- A row of the catalog built by `get_battery_data` (`battery_data.py`).
The derived `tariff` column and the `model_name` column are determined by the
other fields and are not read by the pricing engine, so they are omitted. -/
structure BatteryModel where
  voltage : ℚ
  kW : ℚ
  kWh : ℚ
  backup_hours : ℚ
  price_with_tariff : ℚ
  price_without_tariff : ℚ
deriving DecidableEq, Repr

/-- The fixed 15-row catalog from `get_battery_data` (`battery_data.py` lines 15-46). -/
def get_battery_data : List BatteryModel :=
  [ ⟨208, 30, 81, 2.7, 90000, 54700⟩,
    ⟨208, 30, 122, 4.1, 105100, 63000⟩,
    ⟨208, 30, 184, 6.1, 133300, 78400⟩,
    ⟨208, 50, 122, 2.4, 123000, 71400⟩,
    ⟨208, 50, 184, 3.7, 151300, 86800⟩,
    ⟨208, 50, 245, 4.9, 173900, 99100⟩,
    ⟨480, 30, 81, 2.7, 90000, 54700⟩,
    ⟨480, 30, 122, 4.1, 105100, 63000⟩,
    ⟨480, 30, 184, 6.1, 133300, 78400⟩,
    ⟨480, 60, 122, 2.0, 123000, 71400⟩,
    ⟨480, 60, 184, 3.1, 151300, 86800⟩,
    ⟨480, 60, 245, 4.1, 173900, 99100⟩,
    ⟨480, 90, 184, 2.0, 166800, 95300⟩,
    ⟨480, 90, 245, 2.7, 189500, 107600⟩,
    ⟨480, 90, 266, 3.0, 197000, 111700⟩ ]

/-- A catalog row after line 46 of `interpolation.py` added the `modules`
column (`ceil(kWh / module_size)` as an integer). -/
structure ModelRow where
  model : BatteryModel
  modules : ℤ
deriving DecidableEq, Repr

/-- The error raised at line 39 of `interpolation.py` for an unmatched voltage. -/
inductive PricingError where
  | noReferenceData (voltage : ℚ)
deriving DecidableEq, Repr

/-- The result dictionary built at lines 205-215 of `interpolation.py`. -/
structure PriceEstimates where
  with_tariff : ℚ
  without_tariff : ℚ
  tariff_only : ℚ
  tariff_percentage : ℚ
  modules_needed : ℤ
  price_per_module : ℚ
  upper_price : ℚ
  lower_price : ℚ
  interpolation_method : String
deriving DecidableEq, Repr

/-- Sort key of `sort_values('kW')` (ascending). -/
def byKW (x y : ModelRow) : Prop := x.model.kW ≤ y.model.kW

instance : DecidableRel byKW := fun x y => inferInstanceAs (Decidable (x.model.kW ≤ y.model.kW))

instance : IsTotal ModelRow byKW := ⟨fun x y => le_total x.model.kW y.model.kW⟩

instance : IsTrans ModelRow byKW := ⟨fun _ _ _ => le_trans⟩

/-- Sort key of `sort_values('kW', ascending=False)` (descending). -/
def byKWDesc (x y : ModelRow) : Prop := y.model.kW ≤ x.model.kW

instance : DecidableRel byKWDesc := fun x y => inferInstanceAs (Decidable (y.model.kW ≤ x.model.kW))

instance : IsTotal ModelRow byKWDesc := ⟨fun x y => le_total y.model.kW x.model.kW⟩

instance : IsTrans ModelRow byKWDesc := ⟨fun _ _ _ h h2 => le_trans h2 h⟩

/-- Sort key of `sort_values('modules')` (ascending). -/
def byModules (x y : ModelRow) : Prop := x.modules ≤ y.modules

instance : DecidableRel byModules := fun x y => inferInstanceAs (Decidable (x.modules ≤ y.modules))

instance : IsTotal ModelRow byModules := ⟨fun x y => le_total x.modules y.modules⟩

instance : IsTrans ModelRow byModules := ⟨fun _ _ _ => le_trans⟩

instance : DecidableEq (Except PricingError PriceEstimates) := fun a b =>
  match a, b with
  | .ok x, .ok y =>
    if h : x = y then isTrue (by rw [h]) else isFalse (fun hc => h (Except.ok.inj hc))
  | .error x, .error y =>
    if h : x = y then isTrue (by rw [h]) else isFalse (fun hc => h (Except.error.inj hc))
  | .ok _, .error _ => isFalse (fun hc => Except.noConfusion hc)
  | .error _, .ok _ => isFalse (fun hc => Except.noConfusion hc)

/-- Line 35 of `interpolation.py`: `battery_df[battery_df['voltage'] == voltage]`. -/
def voltage_filter (battery_df : List BatteryModel) (voltage : ℚ) : List BatteryModel :=
  battery_df.filter fun b => decide (b.voltage = voltage)

/-- Line 46 of `interpolation.py`: annotate each row with
`modules = int(np.ceil(kWh / module_size))`. -/
def with_modules (module_size : ℚ) (l : List BatteryModel) : List ModelRow :=
  l.map fun b => ⟨b, ⌈b.kWh / module_size⌉⟩

/-- Lines 56-62 of `interpolation.py`: given the sorted candidates on one side
of the target `kW`, widen to all rows of `filtered_df` sharing the `kW` of the
nearest candidate (`iloc[0]`); an empty candidate list stays as it is. -/
def refilter (filtered_df s : List ModelRow) : List ModelRow :=
  match s.head? with
  | some top => filtered_df.filter fun r => decide (r.model.kW = top.model.kW)
  | none => s

/-- Lines 48-71 of `interpolation.py`: the power-banded candidate set
`models_by_kw`.  Rows with an exact `kW` match if any; otherwise all rows at
the nearest `kW` above, the nearest `kW` below, or the concatenation of both
(rows at the kW above first, matching `pd.concat`). -/
def models_by_kw (filtered_df : List ModelRow) (kw : ℚ) : List ModelRow :=
  let models_by_kw0 := filtered_df.filter fun r => decide (r.model.kW = kw)
  if models_by_kw0.isEmpty then
    let models_above_kw :=
      refilter filtered_df
        (List.insertionSort byKW (filtered_df.filter fun r => decide (kw < r.model.kW)))
    let models_below_kw :=
      refilter filtered_df
        (List.insertionSort byKWDesc (filtered_df.filter fun r => decide (r.model.kW < kw)))
    if !models_above_kw.isEmpty && !models_below_kw.isEmpty then
      models_above_kw ++ models_below_kw
    else if !models_above_kw.isEmpty then models_above_kw
    else if !models_below_kw.isEmpty then models_below_kw
    else models_by_kw0
  else models_by_kw0

/-- Lines 82-84 of `interpolation.py`: first row (sorted by `modules`)
whose module count is `>= modules_needed`. -/
def model_above (models_by_kw_sorted : List ModelRow) (modules_needed : ℤ) : Option ModelRow :=
  (models_by_kw_sorted.filter fun r => decide (modules_needed ≤ r.modules)).head?

/-- Lines 87-89 of `interpolation.py`: last row (sorted by `modules`)
whose module count is `< modules_needed`. -/
def model_below (models_by_kw_sorted : List ModelRow) (modules_needed : ℤ) : Option ModelRow :=
  (models_by_kw_sorted.filter fun r => decide (r.modules < modules_needed)).getLast?

/-- Lines 121-152 of `interpolation.py` (Case 2: only a model below exists). -/
def extrapolate_from_below (filtered_df : List ModelRow) (mb : ModelRow) (modules_needed : ℤ) : ℚ :=
  let lower_modules := mb.modules
  let lower_price := mb.model.price_without_tariff
  let same_kw_models :=
    List.insertionSort byModules (filtered_df.filter fun r => decide (r.model.kW = mb.model.kW))
  if 1 < same_kw_models.length then
    let higher_models := same_kw_models.filter fun r => decide (lower_modules < r.modules)
    match higher_models.head? with
    | some next_higher =>
      let module_diff := next_higher.modules - lower_modules
      let price_diff := next_higher.model.price_without_tariff - lower_price
      if 0 < module_diff then
        lower_price + ((modules_needed - lower_modules : ℤ) : ℚ) * (price_diff / (module_diff : ℚ))
      else (lower_price / (lower_modules : ℚ)) * (modules_needed : ℚ)
    | none => (lower_price / (lower_modules : ℚ)) * (modules_needed : ℚ)
  else (lower_price / (lower_modules : ℚ)) * (modules_needed : ℚ)

/-- Lines 155-186 of `interpolation.py` (Case 3: only a model above exists). -/
def extrapolate_from_above (filtered_df : List ModelRow) (ma : ModelRow) (modules_needed : ℤ) : ℚ :=
  let upper_modules := ma.modules
  let upper_price := ma.model.price_without_tariff
  let same_kw_models :=
    List.insertionSort byModules (filtered_df.filter fun r => decide (r.model.kW = ma.model.kW))
  if 1 < same_kw_models.length then
    let lower_models := same_kw_models.filter fun r => decide (r.modules < upper_modules)
    match lower_models.getLast? with
    | some next_lower =>
      let module_diff := upper_modules - next_lower.modules
      let price_diff := upper_price - next_lower.model.price_without_tariff
      if 0 < module_diff then
        upper_price - ((upper_modules - modules_needed : ℤ) : ℚ) * (price_diff / (module_diff : ℚ))
      else (upper_price / (upper_modules : ℚ)) * (modules_needed : ℚ)
    | none => (upper_price / (upper_modules : ℚ)) * (modules_needed : ℚ)
  else (upper_price / (upper_modules : ℚ)) * (modules_needed : ℚ)

/-- Lines 73-193 of `interpolation.py`: the four-case estimation of
`without_tariff_estimated`, together with the `upper_price` and `lower_price`
values left in scope for the result dictionary (both initialised to `0` at
lines 93-94 and only re-assigned in the branch that runs). -/
def without_tariff_estimated (filtered_df : List ModelRow) (kw : ℚ) (modules_needed : ℤ) :
    ℚ × ℚ × ℚ :=
  let models_by_kw_sorted := List.insertionSort byModules (models_by_kw filtered_df kw)
  match model_above models_by_kw_sorted modules_needed,
        model_below models_by_kw_sorted modules_needed with
  | some ma, some mb =>
    let upper_modules := ma.modules
    let lower_modules := mb.modules
    let upper_price := ma.model.price_without_tariff
    let lower_price := mb.model.price_without_tariff
    let module_diff := upper_modules - lower_modules
    let price_diff := upper_price - lower_price
    let est :=
      if 0 < module_diff then
        lower_price + ((modules_needed - lower_modules : ℤ) : ℚ) * (price_diff / (module_diff : ℚ))
      else (upper_price + lower_price) / 2
    (est, upper_price, lower_price)
  | none, some mb =>
    (extrapolate_from_below filtered_df mb modules_needed, 0, mb.model.price_without_tariff)
  | some ma, none =>
    (extrapolate_from_above filtered_df ma modules_needed, ma.model.price_without_tariff, 0)
  | none, none =>
    let s := (filtered_df.map fun r => r.model.price_without_tariff / (r.modules : ℚ)).sum
    ((s / (filtered_df.length : ℚ)) * (modules_needed : ℚ), 0, 0)

/-- `interpolate_price` (`interpolation.py` lines 4-222).  The Python defaults
are `include_tariff=True`, `module_size=10.24`, `tariff_percentage=73.8`; all
arguments are passed explicitly here.  `hours` is accepted and, as in the
source, never used. -/
def interpolate_price (battery_df : List BatteryModel) (voltage kw kwh hours : ℚ)
    (include_tariff : Bool) (module_size : ℚ) (tariff_percentage : ℚ) :
    Except PricingError PriceEstimates :=
  let filtered_df0 := voltage_filter battery_df voltage
  if filtered_df0.isEmpty then
    .error (.noReferenceData voltage)
  else
    let modules_needed : ℤ := ⌈kwh / module_size⌉
    let filtered_df := with_modules module_size filtered_df0
    let r := without_tariff_estimated filtered_df kw modules_needed
    let est := r.1
    let upper_price := r.2.1
    let lower_price := r.2.2
    let tariff_amount := est * (tariff_percentage / 100)
    let with_tariff_estimated := est + tariff_amount
    let price_per_module := if 0 < modules_needed then est / (modules_needed : ℚ) else 0
    let price_estimates : PriceEstimates :=
      ⟨with_tariff_estimated, est, tariff_amount, tariff_percentage, modules_needed,
        price_per_module, upper_price, lower_price, "exact_gap"⟩
    if include_tariff then
      .ok price_estimates
    else
      .ok ⟨price_estimates.without_tariff, price_estimates.without_tariff, 0,
        price_estimates.tariff_percentage, price_estimates.modules_needed,
        price_estimates.price_per_module, price_estimates.upper_price,
        price_estimates.lower_price, price_estimates.interpolation_method⟩

/-- Lines 117-118 of `app.py`: the validation check guarding the engine call
(`if kw_input <= 0 or kwh_input <= 0 or hours_input <= 0 or module_size <= 0`). -/
def app_inputs_invalid (kw_input kwh_input hours_input module_size : ℚ) : Bool :=
  decide (kw_input ≤ 0) || decide (kwh_input ≤ 0) || decide (hours_input ≤ 0) ||
    decide (module_size ≤ 0)

/-- The calculate-price flow of `app.py` (lines 114-144): inputs failing the
validation at line 117 produce the error message "All values must be greater
than zero." and the engine is never invoked (modelled as `none`); otherwise
`interpolate_price` is called. -/
def app_calculate_price (battery_df : List BatteryModel) (voltage kw kwh hours : ℚ)
    (include_tariff : Bool) (module_size tariff_percentage : ℚ) :
    Option (Except PricingError PriceEstimates) :=
  if app_inputs_invalid kw kwh hours module_size then none
  else some (interpolate_price battery_df voltage kw kwh hours include_tariff module_size
    tariff_percentage)

/-- The two dataframes alive during a call of `interpolate_price`, viewed as a
heap: `battery_df` is the caller's catalog, `filtered_df` the frame created at
line 35 by `battery_df[battery_df['voltage'] == voltage].copy()`, and
`price_per_module_col` the extra column added to `filtered_df` at line 191
(fallback branch only; `none` when the column was never created). -/
structure Frames where
  battery_df : List BatteryModel
  filtered_df : List ModelRow
  price_per_module_col : Option (List ℚ)
deriving DecidableEq, Repr

/-- `interpolate_price` with the dataframe heap threaded explicitly.  Each
`pandas` write of the source updates the frame that owns the written object:
the `.copy()` at line 35 makes `filtered_df` a fresh value, so the column
writes at line 46 (`modules`) and line 191 (`price_per_module`, Case 4 only)
update `filtered_df`; no statement of the function assigns to `battery_df` or
to a view of it. -/
def interpolate_price_frames (battery_df : List BatteryModel) (voltage kw kwh hours : ℚ)
    (include_tariff : Bool) (module_size : ℚ) (tariff_percentage : ℚ) :
    Frames × Except PricingError PriceEstimates :=
  let s0 : Frames := ⟨battery_df, (voltage_filter battery_df voltage).map (fun b => ⟨b, 0⟩), none⟩
  if s0.filtered_df.isEmpty then
    (s0, .error (.noReferenceData voltage))
  else
    let modules_needed : ℤ := ⌈kwh / module_size⌉
    let s1 : Frames :=
      ⟨s0.battery_df, s0.filtered_df.map (fun r => ⟨r.model, ⌈r.model.kWh / module_size⌉⟩), none⟩
    let sorted := List.insertionSort byModules (models_by_kw s1.filtered_df kw)
    let s2 : Frames :=
      match model_above sorted modules_needed, model_below sorted modules_needed with
      | none, none =>
        ⟨s1.battery_df, s1.filtered_df,
          some (s1.filtered_df.map (fun r => r.model.price_without_tariff / (r.modules : ℚ)))⟩
      | _, _ => s1
    (s2, interpolate_price battery_df voltage kw kwh hours include_tariff module_size
      tariff_percentage)

/-! Evaluation helpers: the voltage subsets of the fixed catalog, their
module annotations at the application's fixed module size 10.24, and the
ceiling values involved.  These let concrete runs of the engine be computed
by `simp`/`norm_num` in shallow steps. -/

theorem ceil81 : ⌈(81 : ℚ) / 10.24⌉ = (8 : ℤ) := by
  rw [Int.ceil_eq_iff] <;> norm_num

theorem ceil122 : ⌈(122 : ℚ) / 10.24⌉ = (12 : ℤ) := by
  rw [Int.ceil_eq_iff] <;> norm_num

theorem ceil184 : ⌈(184 : ℚ) / 10.24⌉ = (18 : ℤ) := by
  rw [Int.ceil_eq_iff] <;> norm_num

theorem ceil245 : ⌈(245 : ℚ) / 10.24⌉ = (24 : ℤ) := by
  rw [Int.ceil_eq_iff] <;> norm_num

theorem ceil266 : ⌈(266 : ℚ) / 10.24⌉ = (26 : ℤ) := by
  rw [Int.ceil_eq_iff] <;> norm_num

theorem ceil100 : ⌈(100 : ℚ) / 10.24⌉ = (10 : ℤ) := by
  rw [Int.ceil_eq_iff] <;> norm_num

theorem ceil126 : ⌈(126 : ℚ) / 10.24⌉ = (13 : ℤ) := by
  rw [Int.ceil_eq_iff] <;> norm_num

theorem filter208 : voltage_filter get_battery_data 208 =
    [ ⟨208, 30, 81, 2.7, 90000, 54700⟩,
      ⟨208, 30, 122, 4.1, 105100, 63000⟩,
      ⟨208, 30, 184, 6.1, 133300, 78400⟩,
      ⟨208, 50, 122, 2.4, 123000, 71400⟩,
      ⟨208, 50, 184, 3.7, 151300, 86800⟩,
      ⟨208, 50, 245, 4.9, 173900, 99100⟩ ] := by
  norm_num [voltage_filter, get_battery_data, List.filter_cons, decide_eq_true_eq]

theorem filter480 : voltage_filter get_battery_data 480 =
    [ ⟨480, 30, 81, 2.7, 90000, 54700⟩,
      ⟨480, 30, 122, 4.1, 105100, 63000⟩,
      ⟨480, 30, 184, 6.1, 133300, 78400⟩,
      ⟨480, 60, 122, 2.0, 123000, 71400⟩,
      ⟨480, 60, 184, 3.1, 151300, 86800⟩,
      ⟨480, 60, 245, 4.1, 173900, 99100⟩,
      ⟨480, 90, 184, 2.0, 166800, 95300⟩,
      ⟨480, 90, 245, 2.7, 189500, 107600⟩,
      ⟨480, 90, 266, 3.0, 197000, 111700⟩ ] := by
  norm_num [voltage_filter, get_battery_data, List.filter_cons, decide_eq_true_eq]

theorem ann208L : with_modules 10.24
    [ (⟨208, 30, 81, 2.7, 90000, 54700⟩ : BatteryModel),
      ⟨208, 30, 122, 4.1, 105100, 63000⟩,
      ⟨208, 30, 184, 6.1, 133300, 78400⟩,
      ⟨208, 50, 122, 2.4, 123000, 71400⟩,
      ⟨208, 50, 184, 3.7, 151300, 86800⟩,
      ⟨208, 50, 245, 4.9, 173900, 99100⟩ ] =
    [ ⟨⟨208, 30, 81, 2.7, 90000, 54700⟩, 8⟩,
      ⟨⟨208, 30, 122, 4.1, 105100, 63000⟩, 12⟩,
      ⟨⟨208, 30, 184, 6.1, 133300, 78400⟩, 18⟩,
      ⟨⟨208, 50, 122, 2.4, 123000, 71400⟩, 12⟩,
      ⟨⟨208, 50, 184, 3.7, 151300, 86800⟩, 18⟩,
      ⟨⟨208, 50, 245, 4.9, 173900, 99100⟩, 24⟩ ] := by
  simp only [with_modules, List.map_cons, List.map_nil, ModelRow.mk.injEq, List.cons.injEq,
    and_true, true_and, ceil81, ceil122, ceil184, ceil245]

theorem ann480L : with_modules 10.24
    [ (⟨480, 30, 81, 2.7, 90000, 54700⟩ : BatteryModel),
      ⟨480, 30, 122, 4.1, 105100, 63000⟩,
      ⟨480, 30, 184, 6.1, 133300, 78400⟩,
      ⟨480, 60, 122, 2.0, 123000, 71400⟩,
      ⟨480, 60, 184, 3.1, 151300, 86800⟩,
      ⟨480, 60, 245, 4.1, 173900, 99100⟩,
      ⟨480, 90, 184, 2.0, 166800, 95300⟩,
      ⟨480, 90, 245, 2.7, 189500, 107600⟩,
      ⟨480, 90, 266, 3.0, 197000, 111700⟩ ] =
    [ ⟨⟨480, 30, 81, 2.7, 90000, 54700⟩, 8⟩,
      ⟨⟨480, 30, 122, 4.1, 105100, 63000⟩, 12⟩,
      ⟨⟨480, 30, 184, 6.1, 133300, 78400⟩, 18⟩,
      ⟨⟨480, 60, 122, 2.0, 123000, 71400⟩, 12⟩,
      ⟨⟨480, 60, 184, 3.1, 151300, 86800⟩, 18⟩,
      ⟨⟨480, 60, 245, 4.1, 173900, 99100⟩, 24⟩,
      ⟨⟨480, 90, 184, 2.0, 166800, 95300⟩, 18⟩,
      ⟨⟨480, 90, 245, 2.7, 189500, 107600⟩, 24⟩,
      ⟨⟨480, 90, 266, 3.0, 197000, 111700⟩, 26⟩ ] := by
  simp only [with_modules, List.map_cons, List.map_nil, ModelRow.mk.injEq, List.cons.injEq,
    and_true, true_and, ceil81, ceil122, ceil184, ceil245, ceil266]

/-- Concrete run used by C1 (and, with the kW band resolving identically, the
same numbers appear for the C4 counterexample): the full engine output for the
worked-example query. -/
theorem eval_480_30_100 :
    interpolate_price get_battery_data 480 30 100 (100 / 30) true 10.24 73.8 =
      .ok ⟨102281.3, 58850, 43431.3, 73.8, 10, 5885, 63000, 54700, "exact_gap"⟩ := by
  simp only [interpolate_price, filter208, filter480, ann480L, ceil100]
  norm_num [without_tariff_estimated, models_by_kw, refilter, model_above, model_below,
    extrapolate_from_above, extrapolate_from_below, byKW, byKWDesc, byModules,
    List.insertionSort, List.orderedInsert, List.filter_cons, decide_eq_true_eq]

theorem eval_480_neg10_100 :
    interpolate_price get_battery_data 480 (-10) 100 (10 / 3) true 10.24 73.8 =
      .ok ⟨102281.3, 58850, 43431.3, 73.8, 10, 5885, 63000, 54700, "exact_gap"⟩ := by
  simp only [interpolate_price, filter480, ann480L, ceil100]
  norm_num [without_tariff_estimated, models_by_kw, refilter, model_above, model_below,
    extrapolate_from_above, extrapolate_from_below, byKW, byKWDesc, byModules,
    List.insertionSort, List.orderedInsert, List.filter_cons, decide_eq_true_eq]

theorem eval_208_40_122 :
    interpolate_price get_battery_data 208 40 122 1 true 10.24 73.8 =
      .ok ⟨124093.2, 71400, 52693.2, 73.8, 12, 5950, 71400, 54700, "exact_gap"⟩ := by
  simp only [interpolate_price, filter208, ann208L, ceil122]
  norm_num [without_tariff_estimated, models_by_kw, refilter, model_above, model_below,
    extrapolate_from_above, extrapolate_from_below, byKW, byKWDesc, byModules,
    List.insertionSort, List.orderedInsert, List.filter_cons, decide_eq_true_eq]

theorem eval_208_40_126 :
    interpolate_price get_battery_data 208 40 126 1 true 10.24 73.8 =
      .ok ⟨1745821 / 15, 200900 / 3, 247107 / 5, 73.8, 13, 200900 / 39, 86800, 63000,
        "exact_gap"⟩ := by
  simp only [interpolate_price, filter208, ann208L, ceil126]
  norm_num [without_tariff_estimated, models_by_kw, refilter, model_above, model_below,
    extrapolate_from_above, extrapolate_from_below, byKW, byKWDesc, byModules,
    List.insertionSort, List.orderedInsert, List.filter_cons, decide_eq_true_eq]

/-- C1 counterexample: in the worked example the 81-kWh row counts as
`ceil(81/10.24) = 8` modules, not 9 as the claim states, and the engine's gap
interpolation for the query `(480, 30, 100 kWh, module_size 10.24)` returns
`price_without_tariff = 58850`, which is not approximately 57467 (it is more
than 1000 away). -/
theorem c1_counterexample :
    ⌈(81 : ℚ) / 10.24⌉ = 8 ∧ ¬ (⌈(81 : ℚ) / 10.24⌉ = 9) ∧
    (interpolate_price get_battery_data 480 30 100 (100 / 30) true 10.24 73.8).toOption.map
      (fun e => e.without_tariff) = some 58850 ∧
    ¬ ((58850 : ℚ) - 57467 ≤ 1000) := by
  refine ⟨ceil81, by rw [ceil81]; norm_num, ?_, by norm_num⟩
  rw [eval_480_30_100]
  rfl

/-- C1 (amended): for the query `(voltage 480, kW 30, kWh 100, module_size
10.24, tariff 73.8)` on the fixed catalog, `modules_needed = 10`; the 81-kWh
row counts as 8 modules and the 122-kWh row as 12 modules; gap interpolation
at 10 modules gives `price_without_tariff = 54700 + (10-8)/(12-8)*(63000-54700)
= 58850`; the tariff amount is `58850 * 0.738 = 43431.3` and
`price_with_tariff = 102281.3`. -/
theorem c1_worked_example :
    ⌈(100 : ℚ) / 10.24⌉ = 10 ∧ ⌈(81 : ℚ) / 10.24⌉ = 8 ∧ ⌈(122 : ℚ) / 10.24⌉ = 12 ∧
    interpolate_price get_battery_data 480 30 100 (100 / 30) true 10.24 73.8 =
      .ok ⟨102281.3, 58850, 43431.3, 73.8, 10, 5885, 63000, 54700, "exact_gap"⟩ :=
  ⟨ceil100, ceil81, ceil122, eval_480_30_100⟩

/-- C4 counterexample: called directly with a non-positive power
(`kw = -10 ≤ 0`) and an otherwise sensible query, `interpolate_price` does not
fail: it returns a complete estimate (the kW band resolves to the nearest rating
above, 30 kW).  The claimed `InvalidInput` failure does not exist in the
engine. -/
theorem c4_counterexample :
    (-10 : ℚ) ≤ 0 ∧
    interpolate_price get_battery_data 480 (-10) 100 (10 / 3) true 10.24 73.8 =
      .ok ⟨102281.3, 58850, 43431.3, 73.8, 10, 5885, 63000, 54700, "exact_gap"⟩ :=
  ⟨by norm_num, eval_480_neg10_100⟩

/-- C4 (amended): the positivity validation lives in the caller, not the
engine: when any of power, energy, backup hours, or module size is `≤ 0`, the
`app.py` calculate-price flow reports an error and never invokes
`interpolate_price`. -/
theorem c4_app_validates (battery_df : List BatteryModel)
    (voltage kw kwh hours module_size tariff_percentage : ℚ) (include_tariff : Bool)
    (h : kw ≤ 0 ∨ kwh ≤ 0 ∨ hours ≤ 0 ∨ module_size ≤ 0) :
    app_calculate_price battery_df voltage kw kwh hours include_tariff module_size
      tariff_percentage = none := by
  unfold app_calculate_price app_inputs_invalid
  rcases h with h | h | h | h <;> simp [h]

/-- C4 (amended) witness: the amended theorem applied at `kw = -10`. -/
theorem c4_app_validates_witness :
    ((-10 : ℚ) ≤ 0 ∨ (100 : ℚ) ≤ 0 ∨ (10 / 3 : ℚ) ≤ 0 ∨ (10.24 : ℚ) ≤ 0) ∧
    app_calculate_price get_battery_data 480 (-10) 100 (10 / 3) true 10.24 73.8 = none :=
  ⟨Or.inl (by norm_num),
    c4_app_validates get_battery_data 480 (-10) 100 (10 / 3) 10.24 73.8 true
      (Or.inl (by norm_num))⟩

/-- C5: a query whose voltage matches no catalog row makes `interpolate_price`
fail with the no-reference-data error for that voltage (the `ValueError` of
line 39), not return an estimate. -/
theorem c5_no_reference_data (battery_df : List BatteryModel)
    (voltage kw kwh hours module_size tariff_percentage : ℚ) (include_tariff : Bool)
    (h : ∀ b ∈ battery_df, b.voltage ≠ voltage) :
    interpolate_price battery_df voltage kw kwh hours include_tariff module_size
      tariff_percentage = .error (.noReferenceData voltage) := by
  have hf : voltage_filter battery_df voltage = [] := by
    simp only [voltage_filter, List.filter_eq_nil_iff, decide_eq_true_eq]
    exact h
  simp [interpolate_price, hf]

/-- C5 witness: voltage 600 matches no row of the fixed catalog (which holds
only 208 and 480), and the engine returns the no-reference-data error. -/
theorem c5_no_reference_data_witness :
    interpolate_price get_battery_data 600 30 100 1 true 10.24 73.8 =
      .error (.noReferenceData 600) :=
  c5_no_reference_data get_battery_data 600 30 100 1 10.24 73.8 true
    (by norm_num [get_battery_data, List.forall_mem_cons])

/-- C6: with `include_tariff = false` the returned estimate has
`tariff_only = 0` and `with_tariff = without_tariff`, whatever
`tariff_percentage` was supplied (lines 218-220 override the record). -/
theorem c6_exclude_tariff (battery_df : List BatteryModel)
    (voltage kw kwh hours module_size tariff_percentage : ℚ) (e : PriceEstimates)
    (h : interpolate_price battery_df voltage kw kwh hours false module_size
      tariff_percentage = .ok e) :
    e.tariff_only = 0 ∧ e.with_tariff = e.without_tariff := by
  simp only [interpolate_price, Bool.false_eq_true, if_false] at h
  split at h
  · exact Except.noConfusion h
  · injection h with h
    subst h
    exact ⟨rfl, rfl⟩

/-- C6 witness: the theorem applied to a concrete call with a non-zero
tariff percentage. -/
theorem c6_exclude_tariff_witness :
    ∃ e : PriceEstimates,
      interpolate_price get_battery_data 480 30 100 (100 / 30) false 10.24 73.8 = .ok e ∧
      e.tariff_only = 0 ∧ e.with_tariff = e.without_tariff := by
  refine ⟨_, rfl, c6_exclude_tariff get_battery_data 480 30 100 (100 / 30) 10.24 73.8 _ rfl⟩

/-- C7: for positive energy and module size, the `modules_needed` field of any
returned estimate equals `ceil(kwh / module_size)` (line 43) and is at
least 1. -/
theorem c7_modules_needed (battery_df : List BatteryModel)
    (voltage kw kwh hours module_size tariff_percentage : ℚ) (include_tariff : Bool)
    (e : PriceEstimates) (hkwh : 0 < kwh) (hms : 0 < module_size)
    (h : interpolate_price battery_df voltage kw kwh hours include_tariff module_size
      tariff_percentage = .ok e) :
    e.modules_needed = ⌈kwh / module_size⌉ ∧ 1 ≤ e.modules_needed := by
  have hpos : (0 : ℤ) < ⌈kwh / module_size⌉ := Int.ceil_pos.mpr (div_pos hkwh hms)
  cases include_tariff <;>
    simp only [interpolate_price, Bool.false_eq_true, if_false, if_true] at h <;>
    split at h
  · exact Except.noConfusion h
  · injection h with h
    subst h
    exact ⟨rfl, hpos⟩
  · exact Except.noConfusion h
  · injection h with h
    subst h
    exact ⟨rfl, hpos⟩

/-- C7 witness: the theorem applied to the worked example, where
`modules_needed = ceil(100 / 10.24) = 10`. -/
theorem c7_modules_needed_witness :
    ∃ e : PriceEstimates,
      interpolate_price get_battery_data 480 30 100 (100 / 30) true 10.24 73.8 = .ok e ∧
      e.modules_needed = ⌈(100 : ℚ) / 10.24⌉ ∧ 1 ≤ e.modules_needed := by
  refine ⟨_, rfl, c7_modules_needed get_battery_data 480 30 100 (100 / 30) 10.24 73.8 true _
    (by norm_num) (by norm_num) rfl⟩

/-- C9: `interpolate_price` never mutates the catalog: in the heap-threaded
embedding, which models each `pandas` write against the frame that owns it
(the `.copy()` at line 35 separates `filtered_df` from `battery_df`), the
catalog dataframe after the call is the one passed in, in every branch
including the Case-4 fallback, and the returned result is that of the pure
engine. -/
theorem c9_catalog_not_mutated (battery_df : List BatteryModel)
    (voltage kw kwh hours module_size tariff_percentage : ℚ) (include_tariff : Bool) :
    (interpolate_price_frames battery_df voltage kw kwh hours include_tariff module_size
        tariff_percentage).1.battery_df = battery_df ∧
    (interpolate_price_frames battery_df voltage kw kwh hours include_tariff module_size
        tariff_percentage).2 =
      interpolate_price battery_df voltage kw kwh hours include_tariff module_size
        tariff_percentage := by
  have hmap : ∀ (l : List BatteryModel) (f : BatteryModel → ModelRow),
      (l.map f).isEmpty = l.isEmpty := by
    intro l f
    cases l <;> rfl
  constructor
  · simp only [interpolate_price_frames]
    split
    · rfl
    · split <;> rfl
  · simp only [interpolate_price_frames]
    split
    · rename_i hemp
      rw [hmap] at hemp
      simp only [interpolate_price]
      rw [if_pos hemp]
    · rfl

/-- C2 counterexample: positive prices alone do not make the invariant true.
On the one-row catalog `(voltage 480, kW 30, kWh -20.48, prices 174/100)` —
positive prices, but a negative energy, hence a module count of
`ceil(-20.48/10.24) = -2` — the valid query `(480, 30, 10 kWh, 1 h)` receives
`price_without_tariff = 100 / (-2) * 1 = -50 < 0`, violating
`price_with_tariff >= price_without_tariff >= 0`. -/
theorem c2_counterexample :
    (∀ b ∈ [(⟨480, 30, -20.48, 1, 174, 100⟩ : BatteryModel)],
      0 < b.price_without_tariff ∧ 0 < b.price_with_tariff) ∧
    (interpolate_price [(⟨480, 30, -20.48, 1, 174, 100⟩ : BatteryModel)] 480 30 10 1 true
      10.24 73.8).toOption.map (fun e => e.without_tariff) = some (-50) ∧
    ((-50 : ℚ) < 0) := by
  have hc1 : ⌈(10 : ℚ) / 10.24⌉ = (1 : ℤ) := by rw [Int.ceil_eq_iff] <;> norm_num
  have hc2 : ⌈(-20.48 : ℚ) / 10.24⌉ = (-2 : ℤ) := by rw [Int.ceil_eq_iff] <;> norm_num
  have hc3 : ⌈(-2 : ℚ)⌉ = (-2 : ℤ) := by rw [Int.ceil_eq_iff] <;> norm_num
  refine ⟨by norm_num, ?_, by norm_num⟩
  simp only [interpolate_price, voltage_filter, with_modules, List.filter_cons, List.map_cons,
    List.map_nil, hc1, hc2]
  norm_num [without_tariff_estimated, models_by_kw, refilter, model_above, model_below,
    extrapolate_from_above, extrapolate_from_below, byKW, byKWDesc, byModules,
    List.insertionSort, List.orderedInsert, List.filter_cons, decide_eq_true_eq,
    Except.toOption, hc2, hc3]

/-- C8 counterexample: monotonicity in energy fails on the fixed catalog for a
power between two catalog ratings.  At voltage 208 and `kw = 40` the band is
the union of the 50-kW and 30-kW rows; `kwh = 122` (12 modules) interpolates to
71400 while the larger `kwh = 126` (13 modules) interpolates to
`200900/3 ≈ 66966.7 < 71400`. -/
theorem c8_counterexample :
    (interpolate_price get_battery_data 208 40 122 1 true 10.24 73.8).toOption.map
      (fun e => e.without_tariff) = some 71400 ∧
    (interpolate_price get_battery_data 208 40 126 1 true 10.24 73.8).toOption.map
      (fun e => e.without_tariff) = some (200900 / 3) ∧
    (122 : ℚ) < 126 ∧ (200900 / 3 : ℚ) < 71400 := by
  refine ⟨?_, ?_, by norm_num, by norm_num⟩
  · rw [eval_208_40_122]
    rfl
  · rw [eval_208_40_126]
    rfl

/-! Structural lemmas about the power band and the bracketing models,
feeding the invariant (C2) and safety (C10) claims. -/

theorem mem_sort {r : ModelRow → ModelRow → Prop} [DecidableRel r] {l : List ModelRow}
    {x : ModelRow} : x ∈ List.insertionSort r l ↔ x ∈ l :=
  (List.perm_insertionSort r l).mem_iff

theorem sort_eq_nil_iff {r : ModelRow → ModelRow → Prop} [DecidableRel r] {l : List ModelRow} :
    List.insertionSort r l = [] ↔ l = [] := by
  constructor
  · intro h
    have hlen := (List.perm_insertionSort r l).length_eq
    rw [h] at hlen
    exact List.length_eq_zero.mp hlen.symm
  · intro h
    subst h
    rfl

theorem ne_nil_of_isEmpty_false {l : List ModelRow} (h : l.isEmpty = false) : l ≠ [] := by
  intro hc
  subst hc
  exact Bool.noConfusion h

theorem isEmpty_true_of_not_not {l : List ModelRow} (h : ¬ ((!l.isEmpty) = true)) :
    l = [] := by
  rcases hb : l.isEmpty with _ | _
  · rw [hb] at h
    exact absurd rfl h
  · exact List.isEmpty_iff.mp hb

theorem refilter_subset {filtered s : List ModelRow} (hs : ∀ y ∈ s, y ∈ filtered) :
    ∀ x ∈ refilter filtered s, x ∈ filtered := by
  intro x hx
  unfold refilter at hx
  cases hh : s.head? with
  | none =>
    rw [hh] at hx
    exact hs x hx
  | some t =>
    rw [hh] at hx
    exact (List.mem_filter.mp hx).1

theorem refilter_closed {filtered s : List ModelRow} {x r : ModelRow}
    (hr : r ∈ filtered) (hkw : r.model.kW = x.model.kW)
    (hx : x ∈ refilter filtered s) : r ∈ refilter filtered s := by
  unfold refilter at hx ⊢
  cases hh : s.head? with
  | none =>
    have hs : s = [] := List.head?_eq_none_iff.mp hh
    subst hs
    exact absurd hx (List.not_mem_nil x)
  | some t =>
    rw [hh] at hx
    have hxt : x.model.kW = t.model.kW := by
      simpa using (List.mem_filter.mp hx).2
    exact List.mem_filter.mpr ⟨hr, by simp [hkw, hxt]⟩

theorem refilter_eq_nil {filtered s : List ModelRow} (hs : ∀ y ∈ s, y ∈ filtered)
    (h : refilter filtered s = []) : s = [] := by
  cases hh : s.head? with
  | none => exact List.head?_eq_none_iff.mp hh
  | some t =>
    exfalso
    have ht : t ∈ s := List.mem_of_mem_head? hh
    unfold refilter at h
    rw [hh] at h
    have hmem : t ∈ filtered.filter fun r => decide (r.model.kW = t.model.kW) :=
      List.mem_filter.mpr ⟨hs t ht, by simp⟩
    have h2 : filtered.filter (fun r => decide (r.model.kW = t.model.kW)) = [] := h
    rw [h2] at hmem
    exact absurd hmem (List.not_mem_nil t)

theorem mem_filtered_of_mem_models_by_kw {filtered : List ModelRow} {kw : ℚ} {x : ModelRow}
    (hx : x ∈ models_by_kw filtered kw) : x ∈ filtered := by
  have habove : ∀ y ∈ refilter filtered
      (List.insertionSort byKW (filtered.filter fun r => decide (kw < r.model.kW))),
      y ∈ filtered :=
    refilter_subset (fun y hy => (List.mem_filter.mp (mem_sort.mp hy)).1)
  have hbelow : ∀ y ∈ refilter filtered
      (List.insertionSort byKWDesc (filtered.filter fun r => decide (r.model.kW < kw))),
      y ∈ filtered :=
    refilter_subset (fun y hy => (List.mem_filter.mp (mem_sort.mp hy)).1)
  simp only [models_by_kw] at hx
  split at hx
  · split at hx
    · rcases List.mem_append.mp hx with hm | hm
      · exact habove x hm
      · exact hbelow x hm
    · split at hx
      · exact habove x hx
      · split at hx
        · exact hbelow x hx
        · exact (List.mem_filter.mp hx).1
  · exact (List.mem_filter.mp hx).1

theorem mem_models_by_kw_closed {filtered : List ModelRow} {kw : ℚ} {x r : ModelRow}
    (hx : x ∈ models_by_kw filtered kw) (hr : r ∈ filtered)
    (hkw : r.model.kW = x.model.kW) : r ∈ models_by_kw filtered kw := by
  simp only [models_by_kw] at hx ⊢
  split at hx
  · rename_i hemp
    rw [if_pos hemp]
    split at hx
    · rename_i hboth
      rw [if_pos hboth]
      rcases List.mem_append.mp hx with hm | hm
      · exact List.mem_append.mpr (Or.inl (refilter_closed hr hkw hm))
      · exact List.mem_append.mpr (Or.inr (refilter_closed hr hkw hm))
    · rename_i hnboth
      rw [if_neg hnboth]
      split at hx
      · rename_i ha
        rw [if_pos ha]
        exact refilter_closed hr hkw hx
      · rename_i hna
        rw [if_neg hna]
        split at hx
        · rename_i hb
          rw [if_pos hb]
          exact refilter_closed hr hkw hx
        · rename_i hnb
          rw [if_neg hnb]
          rw [List.isEmpty_iff.mp hemp] at hx
          exact absurd hx (List.not_mem_nil x)
  · rename_i hemp
    rw [if_neg hemp]
    have hxkw : x.model.kW = kw := by
      simpa using (List.mem_filter.mp hx).2
    exact List.mem_filter.mpr ⟨hr, by simp [hkw, hxkw]⟩

theorem models_by_kw_ne_nil {filtered : List ModelRow} {kw : ℚ} (hne : filtered ≠ []) :
    models_by_kw filtered kw ≠ [] := by
  simp only [models_by_kw]
  split
  · rename_i hemp
    split
    · rename_i hboth
      rw [Bool.and_eq_true, Bool.not_eq_true', Bool.not_eq_true'] at hboth
      intro hc
      rcases List.append_eq_nil.mp hc with ⟨h1, _⟩
      exact ne_nil_of_isEmpty_false hboth.1 h1
    · split
      · rename_i ha
        rw [Bool.not_eq_true'] at ha
        exact ne_nil_of_isEmpty_false ha
      · split
        · rename_i hb
          rw [Bool.not_eq_true'] at hb
          exact ne_nil_of_isEmpty_false hb
        · rename_i hnboth hna hnb
          exfalso
          have hA := isEmpty_true_of_not_not hna
          have hB := isEmpty_true_of_not_not hnb
          have hsortA := refilter_eq_nil
            (fun y hy => (List.mem_filter.mp (mem_sort.mp hy)).1) hA
          have hsortB := refilter_eq_nil
            (fun y hy => (List.mem_filter.mp (mem_sort.mp hy)).1) hB
          have hfA := sort_eq_nil_iff.mp hsortA
          have hfB := sort_eq_nil_iff.mp hsortB
          have hall : ∀ r ∈ filtered, r.model.kW = kw := by
            intro r hr
            have h1 : ¬ kw < r.model.kW := by
              have := List.filter_eq_nil_iff.mp hfA r hr
              simpa using this
            have h2 : ¬ r.model.kW < kw := by
              have := List.filter_eq_nil_iff.mp hfB r hr
              simpa using this
            exact le_antisymm (not_lt.mp h1) (not_lt.mp h2)
          have hfull : filtered.filter (fun r => decide (r.model.kW = kw)) = filtered :=
            List.filter_eq_self.mpr (fun r hr => decide_eq_true (hall r hr))
          rw [hfull] at hemp
          exact hne (List.isEmpty_iff.mp hemp)
  · rename_i hemp
    intro hc
    rw [hc] at hemp
    exact hemp rfl

theorem bracket_exists {sorted : List ModelRow} {n : ℤ} (h : sorted ≠ []) :
    model_above sorted n ≠ none ∨ model_below sorted n ≠ none := by
  obtain ⟨x, hx⟩ := List.exists_mem_of_ne_nil sorted h
  rcases le_or_lt n x.modules with hle | hlt
  · left
    unfold model_above
    intro hc
    rw [List.head?_eq_none_iff] at hc
    have hmem : x ∈ sorted.filter fun r => decide (n ≤ r.modules) :=
      List.mem_filter.mpr ⟨hx, by simpa using hle⟩
    rw [hc] at hmem
    exact absurd hmem (List.not_mem_nil x)
  · right
    unfold model_below
    intro hc
    rw [List.getLast?_eq_none_iff] at hc
    have hmem : x ∈ sorted.filter fun r => decide (r.modules < n) :=
      List.mem_filter.mpr ⟨hx, by simpa using hlt⟩
    rw [hc] at hmem
    exact absurd hmem (List.not_mem_nil x)

/-- C10: whenever the voltage-filtered subset is non-empty, the power-band
candidate set `models_by_kw` is non-empty and at least one bracketing model
(`model_above` or `model_below`) exists, so the Case-4 global-average fallback
(lines 188-193) is never executed. -/
theorem c10_no_fallback (battery_df : List BatteryModel) (voltage kw module_size : ℚ) (n : ℤ)
    (h : voltage_filter battery_df voltage ≠ []) :
    models_by_kw (with_modules module_size (voltage_filter battery_df voltage)) kw ≠ [] ∧
    (model_above (List.insertionSort byModules
        (models_by_kw (with_modules module_size (voltage_filter battery_df voltage)) kw)) n ≠
        none ∨
      model_below (List.insertionSort byModules
        (models_by_kw (with_modules module_size (voltage_filter battery_df voltage)) kw)) n ≠
        none) := by
  have h1 : with_modules module_size (voltage_filter battery_df voltage) ≠ [] := by
    intro hc
    unfold with_modules at hc
    exact h (List.map_eq_nil_iff.mp hc)
  have h2 : models_by_kw (with_modules module_size (voltage_filter battery_df voltage)) kw ≠ [] :=
    models_by_kw_ne_nil h1
  refine ⟨h2, bracket_exists ?_⟩
  intro hc
  exact h2 (sort_eq_nil_iff.mp hc)

/-- C10 witness: the theorem applied to the fixed catalog at voltage 480,
power 30, and 10 required modules. -/
theorem c10_no_fallback_witness :
    models_by_kw (with_modules 10.24 (voltage_filter get_battery_data 480)) 30 ≠ [] ∧
    (model_above (List.insertionSort byModules
        (models_by_kw (with_modules 10.24 (voltage_filter get_battery_data 480)) 30)) 10 ≠
        none ∨
      model_below (List.insertionSort byModules
        (models_by_kw (with_modules 10.24 (voltage_filter get_battery_data 480)) 30)) 10 ≠
        none) :=
  c10_no_fallback get_battery_data 480 30 10.24 10 (by rw [filter480]; simp)

theorem model_above_spec {sorted : List ModelRow} {n : ℤ} {ma : ModelRow}
    (h : model_above sorted n = some ma) : ma ∈ sorted ∧ n ≤ ma.modules := by
  unfold model_above at h
  have hm := List.mem_of_mem_head? h
  have hm2 := List.mem_filter.mp hm
  exact ⟨hm2.1, by simpa using hm2.2⟩

theorem model_below_spec {sorted : List ModelRow} {n : ℤ} {mb : ModelRow}
    (h : model_below sorted n = some mb) : mb ∈ sorted ∧ mb.modules < n := by
  unfold model_below at h
  have hm := List.mem_of_mem_getLast? h
  have hm2 := List.mem_filter.mp hm
  exact ⟨hm2.1, by simpa using hm2.2⟩

theorem model_above_none {sorted : List ModelRow} {n : ℤ} (h : model_above sorted n = none) :
    ∀ y ∈ sorted, y.modules < n := by
  unfold model_above at h
  rw [List.head?_eq_none_iff] at h
  intro y hy
  exact not_le.mp (by simpa using List.filter_eq_nil_iff.mp h y hy)

theorem model_below_none {sorted : List ModelRow} {n : ℤ} (h : model_below sorted n = none) :
    ∀ y ∈ sorted, n ≤ y.modules := by
  unfold model_below at h
  rw [List.getLast?_eq_none_iff] at h
  intro y hy
  exact not_lt.mp (by simpa using List.filter_eq_nil_iff.mp h y hy)

theorem sorted_head_min {l : List ModelRow} {x : ModelRow} (hs : List.Sorted byModules l)
    (h : l.head? = some x) : ∀ y ∈ l, x.modules ≤ y.modules := by
  cases l with
  | nil => cases h
  | cons a as =>
    injection h with h
    subst h
    intro y hy
    rcases List.mem_cons.mp hy with rfl | hy
    · exact le_refl _
    · exact List.rel_of_sorted_cons hs y hy

theorem sorted_getLast_max {l : List ModelRow} {x : ModelRow} (hs : List.Sorted byModules l)
    (h : l.getLast? = some x) : ∀ y ∈ l, y.modules ≤ x.modules := by
  induction l with
  | nil => cases h
  | cons a as ih =>
    cases as with
    | nil =>
      have h2 : some a = some x := by simpa using h
      injection h2 with h2
      subst h2
      intro y hy
      rw [List.mem_singleton.mp hy]
    | cons b bs =>
      rw [List.getLast?_cons_cons] at h
      intro y hy
      rcases List.mem_cons.mp hy with rfl | hy
      · exact List.rel_of_sorted_cons hs x (List.mem_of_mem_getLast? h)
      · exact ih hs.of_cons h y hy

/-- The interpolated value of Case 1 (lines 97-115) rewritten as a convex
combination, from which non-negativity of the estimate follows. -/
theorem case1_nonneg {lp up : ℚ} {lm um n : ℤ} (hlp : 0 < lp) (hup : 0 < up)
    (hlm : lm < n) (hum : n ≤ um) :
    0 ≤ lp + ((n - lm : ℤ) : ℚ) * ((up - lp) / ((um - lm : ℤ) : ℚ)) := by
  have hd : (0 : ℚ) < ((um : ℚ) - lm) := by
    have : lm < um := lt_of_lt_of_le hlm hum
    exact_mod_cast sub_pos.mpr (show (lm : ℚ) < um by exact_mod_cast this)
  have heq : lp + ((n - lm : ℤ) : ℚ) * ((up - lp) / ((um - lm : ℤ) : ℚ)) =
      (lp * ((um : ℚ) - n) + up * ((n : ℚ) - lm)) / ((um : ℚ) - lm) := by
    push_cast
    field_simp
    ring
  rw [heq]
  apply div_nonneg _ hd.le
  have h1 : (0 : ℚ) ≤ (um : ℚ) - n := by
    have : (n : ℚ) ≤ um := by exact_mod_cast hum
    linarith
  have h2 : (0 : ℚ) ≤ (n : ℚ) - lm := by
    have : (lm : ℚ) < n := by exact_mod_cast hlm
    linarith
  have := mul_nonneg hlp.le h1
  have := mul_nonneg hup.le h2
  linarith

/-- The flat per-module extrapolation (price/modules * modules_needed) is
non-negative for a positive price, a positive module count and a positive
target. -/
theorem flat_nonneg {p : ℚ} {m n : ℤ} (hp : 0 < p) (hm : 1 ≤ m) (hn : 1 ≤ n) :
    0 ≤ (p / (m : ℚ)) * (n : ℚ) := by
  have hm' : (0 : ℚ) < (m : ℚ) := by exact_mod_cast lt_of_lt_of_le Int.zero_lt_one hm
  have hn' : (0 : ℚ) ≤ (n : ℚ) := by
    have : (0 : ℤ) ≤ n := le_trans (by norm_num) hn
    exact_mod_cast this
  exact mul_nonneg (div_nonneg hp.le hm'.le) hn'

/-- Core of C2: for a catalog subset whose rows all have a positive price and
at least one module, the `without_tariff_estimated` value is non-negative for
every power and every positive target module count, in all four cases of the
algorithm. -/
theorem without_tariff_nonneg (filtered : List ModelRow) (kw : ℚ) (n : ℤ)
    (hrows : ∀ r ∈ filtered, 0 < r.model.price_without_tariff ∧ 1 ≤ r.modules)
    (hn : 1 ≤ n) :
    0 ≤ (without_tariff_estimated filtered kw n).1 := by
  have hsub : ∀ x ∈ List.insertionSort byModules (models_by_kw filtered kw), x ∈ filtered :=
    fun x hx => mem_filtered_of_mem_models_by_kw (mem_sort.mp hx)
  have hs : List.Sorted byModules (List.insertionSort byModules (models_by_kw filtered kw)) :=
    List.sorted_insertionSort byModules (models_by_kw filtered kw)
  simp only [without_tariff_estimated]
  rcases hma : model_above (List.insertionSort byModules (models_by_kw filtered kw)) n
    with _ | ma <;>
  rcases hmb : model_below (List.insertionSort byModules (models_by_kw filtered kw)) n
    with _ | mb
  · -- Case 4: global average fallback
    simp only
    apply mul_nonneg
    · apply div_nonneg
      · apply List.sum_nonneg
        intro a ha
        obtain ⟨r, hr, rfl⟩ := List.mem_map.mp ha
        have h1 := (hrows r hr).1
        have h2 := (hrows r hr).2
        have : (0 : ℚ) < (r.modules : ℚ) := by exact_mod_cast lt_of_lt_of_le Int.zero_lt_one h2
        exact div_nonneg h1.le this.le
      · exact Nat.cast_nonneg _
    · have : (0 : ℤ) ≤ n := le_trans (by norm_num) hn
      exact_mod_cast this
  · -- Case 2: only a model below
    simp only
    obtain ⟨hmb_mem, hmb_lt⟩ := model_below_spec hmb
    have hall : ∀ y ∈ List.insertionSort byModules (models_by_kw filtered kw), y.modules < n :=
      model_above_none hma
    have hfull : (List.insertionSort byModules (models_by_kw filtered kw)).filter
        (fun r => decide (r.modules < n)) =
        List.insertionSort byModules (models_by_kw filtered kw) :=
      List.filter_eq_self.mpr (fun y hy => decide_eq_true (hall y hy))
    have hmb' : (List.insertionSort byModules (models_by_kw filtered kw)).getLast? = some mb := by
      have h0 : model_below (List.insertionSort byModules (models_by_kw filtered kw)) n =
          (List.insertionSort byModules (models_by_kw filtered kw)).getLast? := by
        unfold model_below
        rw [hfull]
      rw [← h0, hmb]
    have hmax := sorted_getLast_max hs hmb'
    have hmb_band : mb ∈ models_by_kw filtered kw := mem_sort.mp hmb_mem
    have hdead : (List.insertionSort byModules
        (filtered.filter fun r => decide (r.model.kW = mb.model.kW))).filter
        (fun r => decide (mb.modules < r.modules)) = [] := by
      apply List.filter_eq_nil_iff.mpr
      intro y hy
      have hy' := mem_sort.mp hy
      have hyf := (List.mem_filter.mp hy').1
      have hykw : y.model.kW = mb.model.kW := by
        simpa using (List.mem_filter.mp hy').2
      have hy_band : y ∈ models_by_kw filtered kw :=
        mem_models_by_kw_closed hmb_band hyf hykw
      have hy_sorted : y ∈ List.insertionSort byModules (models_by_kw filtered kw) :=
        mem_sort.mpr hy_band
      simpa using not_lt.mpr (hmax y hy_sorted)
    have hlp := (hrows mb (hsub mb hmb_mem)).1
    have hlm := (hrows mb (hsub mb hmb_mem)).2
    simp only [extrapolate_from_below, hdead, List.head?_nil]
    split
    · exact flat_nonneg hlp hlm hn
    · exact flat_nonneg hlp hlm hn
  · -- Case 3: only a model above
    simp only
    obtain ⟨hma_mem, hma_le⟩ := model_above_spec hma
    have hall : ∀ y ∈ List.insertionSort byModules (models_by_kw filtered kw), n ≤ y.modules :=
      model_below_none hmb
    have hfull : (List.insertionSort byModules (models_by_kw filtered kw)).filter
        (fun r => decide (n ≤ r.modules)) =
        List.insertionSort byModules (models_by_kw filtered kw) :=
      List.filter_eq_self.mpr (fun y hy => decide_eq_true (hall y hy))
    have hma' : (List.insertionSort byModules (models_by_kw filtered kw)).head? = some ma := by
      have h0 : model_above (List.insertionSort byModules (models_by_kw filtered kw)) n =
          (List.insertionSort byModules (models_by_kw filtered kw)).head? := by
        unfold model_above
        rw [hfull]
      rw [← h0, hma]
    have hmin := sorted_head_min hs hma'
    have hma_band : ma ∈ models_by_kw filtered kw := mem_sort.mp hma_mem
    have hdead : (List.insertionSort byModules
        (filtered.filter fun r => decide (r.model.kW = ma.model.kW))).filter
        (fun r => decide (r.modules < ma.modules)) = [] := by
      apply List.filter_eq_nil_iff.mpr
      intro y hy
      have hy' := mem_sort.mp hy
      have hyf := (List.mem_filter.mp hy').1
      have hykw : y.model.kW = ma.model.kW := by
        simpa using (List.mem_filter.mp hy').2
      have hy_band : y ∈ models_by_kw filtered kw :=
        mem_models_by_kw_closed hma_band hyf hykw
      have hy_sorted : y ∈ List.insertionSort byModules (models_by_kw filtered kw) :=
        mem_sort.mpr hy_band
      simpa using not_lt.mpr (hmin y hy_sorted)
    have hup := (hrows ma (hsub ma hma_mem)).1
    have hum := (hrows ma (hsub ma hma_mem)).2
    simp only [extrapolate_from_above, hdead, List.getLast?_nil]
    split
    · exact flat_nonneg hup hum hn
    · exact flat_nonneg hup hum hn
  · -- Case 1: both models exist
    simp only
    obtain ⟨hma_mem, hma_le⟩ := model_above_spec hma
    obtain ⟨hmb_mem, hmb_lt⟩ := model_below_spec hmb
    have hup := (hrows ma (hsub ma hma_mem)).1
    have hlp := (hrows mb (hsub mb hmb_mem)).1
    split
    · exact case1_nonneg hlp hup hmb_lt hma_le
    · linarith

/-- C2 (amended): for every valid query (positive kW, kWh, hours, module
size; tariff percentage in [0, 100]) on a catalog whose rows have positive
prices and positive energies, the returned estimate satisfies
`without_tariff >= 0`, `without_tariff <= with_tariff`, and
`with_tariff = without_tariff + tariff_only` exactly. -/
theorem c2_invariants (battery_df : List BatteryModel)
    (voltage kw kwh hours module_size tariff_percentage : ℚ) (include_tariff : Bool)
    (e : PriceEstimates)
    (hcat : ∀ b ∈ battery_df, 0 < b.price_without_tariff ∧ 0 < b.kWh)
    (hkw : 0 < kw) (hkwh : 0 < kwh) (hhours : 0 < hours) (hms : 0 < module_size)
    (htp0 : 0 ≤ tariff_percentage) (htp1 : tariff_percentage ≤ 100)
    (h : interpolate_price battery_df voltage kw kwh hours include_tariff module_size
      tariff_percentage = .ok e) :
    0 ≤ e.without_tariff ∧ e.without_tariff ≤ e.with_tariff ∧
      e.with_tariff = e.without_tariff + e.tariff_only := by
  have hrows : ∀ r ∈ with_modules module_size (voltage_filter battery_df voltage),
      0 < r.model.price_without_tariff ∧ 1 ≤ r.modules := by
    intro r hr
    unfold with_modules at hr
    obtain ⟨b, hb, rfl⟩ := List.mem_map.mp hr
    have hbf : b ∈ battery_df := by
      unfold voltage_filter at hb
      exact (List.mem_filter.mp hb).1
    refine ⟨(hcat b hbf).1, ?_⟩
    exact Int.ceil_pos.mpr (div_pos (hcat b hbf).2 hms)
  have hn : 1 ≤ ⌈kwh / module_size⌉ := Int.ceil_pos.mpr (div_pos hkwh hms)
  have hW := without_tariff_nonneg (with_modules module_size (voltage_filter battery_df voltage))
    kw ⌈kwh / module_size⌉ hrows hn
  have htariff : 0 ≤ (without_tariff_estimated
      (with_modules module_size (voltage_filter battery_df voltage)) kw
      ⌈kwh / module_size⌉).1 * (tariff_percentage / 100) :=
    mul_nonneg hW (div_nonneg htp0 (by norm_num))
  cases include_tariff <;>
    simp only [interpolate_price, Bool.false_eq_true, if_false, if_true] at h <;>
    split at h
  · exact Except.noConfusion h
  · injection h with h
    subst h
    exact ⟨hW, le_refl _, (add_zero _).symm⟩
  · exact Except.noConfusion h
  · injection h with h
    subst h
    exact ⟨hW, le_add_of_nonneg_right htariff, rfl⟩

/-- C2 (amended) witness: the theorem applied to the fixed catalog (all of
whose rows have positive prices and energies) at the worked-example query. -/
theorem c2_invariants_witness :
    ∃ e : PriceEstimates,
      interpolate_price get_battery_data 480 30 100 (100 / 30) true 10.24 73.8 = .ok e ∧
      0 ≤ e.without_tariff ∧ e.without_tariff ≤ e.with_tariff ∧
        e.with_tariff = e.without_tariff + e.tariff_only := by
  refine ⟨_, rfl, c2_invariants get_battery_data 480 30 100 (100 / 30) 10.24 73.8 true _
    ?_ (by norm_num) (by norm_num) (by norm_num) (by norm_num) (by norm_num) (by norm_num) rfl⟩
  intro b hb
  fin_cases hb <;> exact ⟨by norm_num, by norm_num⟩

/-! Closed-form regions of the estimator over a three-row exact-kW band.
Every voltage/power band of the fixed catalog has exactly three rows with
strictly increasing module counts; the lemmas below compute
`without_tariff_estimated` in each of the four regions of the target module
count, and are the backbone of the exact-match (C3) and monotonicity (C8)
claims. -/

theorem insertionSort3 {a b c : ModelRow} (h1 : a.modules ≤ b.modules)
    (h2 : b.modules ≤ c.modules) :
    List.insertionSort byModules [a, b, c] = [a, b, c] := by
  simp [List.insertionSort, List.orderedInsert, byModules, h1, h2]

theorem band3_band {filtered : List ModelRow} {kw : ℚ} {a b c : ModelRow}
    (hsame : filtered.filter (fun r => decide (r.model.kW = kw)) = [a, b, c]) :
    models_by_kw filtered kw = [a, b, c] := by
  simp [models_by_kw, hsame]

theorem band3_kw_a {filtered : List ModelRow} {kw : ℚ} {a b c : ModelRow}
    (hsame : filtered.filter (fun r => decide (r.model.kW = kw)) = [a, b, c]) :
    a.model.kW = kw := by
  have hm : a ∈ filtered.filter (fun r => decide (r.model.kW = kw)) := by
    rw [hsame]
    simp
  simpa using (List.mem_filter.mp hm).2

theorem band3_kw_c {filtered : List ModelRow} {kw : ℚ} {a b c : ModelRow}
    (hsame : filtered.filter (fun r => decide (r.model.kW = kw)) = [a, b, c]) :
    c.model.kW = kw := by
  have hm : c ∈ filtered.filter (fun r => decide (r.model.kW = kw)) := by
    rw [hsame]
    simp
  simpa using (List.mem_filter.mp hm).2

/-- Region `n ≤ a.modules`: the query brackets below the whole band, Case 3
runs, its sub-branch searching a lower same-kW row is empty, and the flat
per-module price of the cheapest row is used. -/
theorem band3_W_low {filtered : List ModelRow} {kw : ℚ} {a b c : ModelRow}
    (hsame : filtered.filter (fun r => decide (r.model.kW = kw)) = [a, b, c])
    (hab : a.modules < b.modules) (hbc : b.modules < c.modules)
    {n : ℤ} (hn : n ≤ a.modules) :
    (without_tariff_estimated filtered kw n).1 =
      (a.model.price_without_tariff / (a.modules : ℚ)) * (n : ℚ) := by
  have hband := band3_band hsame
  have hsorted := insertionSort3 hab.le hbc.le
  have hka := band3_kw_a hsame
  have habove : model_above [a, b, c] n = some a := by
    have d1 : decide (n ≤ a.modules) = true := decide_eq_true hn
    simp [model_above, List.filter_cons, d1]
  have hbelow : model_below [a, b, c] n = none := by
    have d1 : decide (a.modules < n) = false := decide_eq_false (not_lt.mpr hn)
    have d2 : decide (b.modules < n) = false :=
      decide_eq_false (not_lt.mpr (le_trans hn hab.le))
    have d3 : decide (c.modules < n) = false :=
      decide_eq_false (not_lt.mpr (le_trans hn (le_trans hab.le hbc.le)))
    simp [model_below, List.filter_cons, d1, d2, d3]
  simp only [without_tariff_estimated, hband, hsorted, habove, hbelow]
  have e1 : decide (a.modules < a.modules) = false := decide_eq_false (lt_irrefl _)
  have e2 : decide (b.modules < a.modules) = false := decide_eq_false (not_lt.mpr hab.le)
  have e3 : decide (c.modules < a.modules) = false :=
    decide_eq_false (not_lt.mpr (le_trans hab.le hbc.le))
  simp [extrapolate_from_above, hka, hsame, hsorted, List.filter_cons, e1, e2, e3]

/-- Region `a.modules < n ≤ b.modules`: Case 1 interpolates between the first
two rows. -/
theorem band3_W_seg1 {filtered : List ModelRow} {kw : ℚ} {a b c : ModelRow}
    (hsame : filtered.filter (fun r => decide (r.model.kW = kw)) = [a, b, c])
    (hab : a.modules < b.modules) (hbc : b.modules < c.modules)
    {n : ℤ} (hna : a.modules < n) (hnb : n ≤ b.modules) :
    (without_tariff_estimated filtered kw n).1 =
      a.model.price_without_tariff + ((n - a.modules : ℤ) : ℚ) *
        ((b.model.price_without_tariff - a.model.price_without_tariff) /
          ((b.modules - a.modules : ℤ) : ℚ)) := by
  have hband := band3_band hsame
  have hsorted := insertionSort3 hab.le hbc.le
  have habove : model_above [a, b, c] n = some b := by
    have d1 : decide (n ≤ a.modules) = false := decide_eq_false (not_le.mpr hna)
    have d2 : decide (n ≤ b.modules) = true := decide_eq_true hnb
    simp [model_above, List.filter_cons, d1, d2]
  have hbelow : model_below [a, b, c] n = some a := by
    have d1 : decide (a.modules < n) = true := decide_eq_true hna
    have d2 : decide (b.modules < n) = false := decide_eq_false (not_lt.mpr hnb)
    have d3 : decide (c.modules < n) = false :=
      decide_eq_false (not_lt.mpr (le_trans hnb hbc.le))
    simp [model_below, List.filter_cons, d1, d2, d3]
  simp only [without_tariff_estimated, hband, hsorted, habove, hbelow]
  rw [if_pos (sub_pos.mpr hab)]

/-- Region `b.modules < n ≤ c.modules`: Case 1 interpolates between the last
two rows. -/
theorem band3_W_seg2 {filtered : List ModelRow} {kw : ℚ} {a b c : ModelRow}
    (hsame : filtered.filter (fun r => decide (r.model.kW = kw)) = [a, b, c])
    (hab : a.modules < b.modules) (hbc : b.modules < c.modules)
    {n : ℤ} (hnb : b.modules < n) (hnc : n ≤ c.modules) :
    (without_tariff_estimated filtered kw n).1 =
      b.model.price_without_tariff + ((n - b.modules : ℤ) : ℚ) *
        ((c.model.price_without_tariff - b.model.price_without_tariff) /
          ((c.modules - b.modules : ℤ) : ℚ)) := by
  have hband := band3_band hsame
  have hsorted := insertionSort3 hab.le hbc.le
  have habove : model_above [a, b, c] n = some c := by
    have d1 : decide (n ≤ a.modules) = false :=
      decide_eq_false (not_le.mpr (lt_of_le_of_lt hab.le hnb))
    have d2 : decide (n ≤ b.modules) = false := decide_eq_false (not_le.mpr hnb)
    have d3 : decide (n ≤ c.modules) = true := decide_eq_true hnc
    simp [model_above, List.filter_cons, d1, d2, d3]
  have hbelow : model_below [a, b, c] n = some b := by
    have d1 : decide (a.modules < n) = true := decide_eq_true (lt_of_le_of_lt hab.le hnb)
    have d2 : decide (b.modules < n) = true := decide_eq_true hnb
    have d3 : decide (c.modules < n) = false := decide_eq_false (not_lt.mpr hnc)
    simp [model_below, List.filter_cons, d1, d2, d3]
  simp only [without_tariff_estimated, hband, hsorted, habove, hbelow]
  rw [if_pos (sub_pos.mpr hbc)]

/-- Region `c.modules < n`: the query exceeds the whole band, Case 2 runs, its
sub-branch searching a higher same-kW row is empty, and the flat per-module
price of the largest row is used. -/
theorem band3_W_high {filtered : List ModelRow} {kw : ℚ} {a b c : ModelRow}
    (hsame : filtered.filter (fun r => decide (r.model.kW = kw)) = [a, b, c])
    (hab : a.modules < b.modules) (hbc : b.modules < c.modules)
    {n : ℤ} (hn : c.modules < n) :
    (without_tariff_estimated filtered kw n).1 =
      (c.model.price_without_tariff / (c.modules : ℚ)) * (n : ℚ) := by
  have hband := band3_band hsame
  have hsorted := insertionSort3 hab.le hbc.le
  have hkc := band3_kw_c hsame
  have habove : model_above [a, b, c] n = none := by
    have d1 : decide (n ≤ a.modules) = false :=
      decide_eq_false (not_le.mpr (lt_of_le_of_lt (le_trans hab.le hbc.le) hn))
    have d2 : decide (n ≤ b.modules) = false :=
      decide_eq_false (not_le.mpr (lt_of_le_of_lt hbc.le hn))
    have d3 : decide (n ≤ c.modules) = false := decide_eq_false (not_le.mpr hn)
    simp [model_above, List.filter_cons, d1, d2, d3]
  have hbelow : model_below [a, b, c] n = some c := by
    have d1 : decide (a.modules < n) = true :=
      decide_eq_true (lt_of_le_of_lt (le_trans hab.le hbc.le) hn)
    have d2 : decide (b.modules < n) = true := decide_eq_true (lt_of_le_of_lt hbc.le hn)
    have d3 : decide (c.modules < n) = true := decide_eq_true hn
    simp [model_below, List.filter_cons, d1, d2, d3]
  simp only [without_tariff_estimated, hband, hsorted, habove, hbelow]
  have e1 : decide (c.modules < a.modules) = false :=
    decide_eq_false (not_lt.mpr (le_trans hab.le hbc.le))
  have e2 : decide (c.modules < b.modules) = false := decide_eq_false (not_lt.mpr hbc.le)
  have e3 : decide (c.modules < c.modules) = false := decide_eq_false (lt_irrefl _)
  simp [extrapolate_from_below, hkc, hsame, hsorted, List.filter_cons, e1, e2, e3]

/-! Elementary bounds for the two shapes of the estimator (flat per-module
pricing and linear gap interpolation), over `ℚ`. -/

theorem flatW_mono {p m x y : ℚ} (hp : 0 ≤ p) (hm : 0 < m) (h : x ≤ y) :
    p / m * x ≤ p / m * y :=
  mul_le_mul_of_nonneg_left h (div_nonneg hp hm.le)

theorem flatW_le {p m x : ℚ} (hp : 0 ≤ p) (hm : 0 < m) (h : x ≤ m) : p / m * x ≤ p := by
  calc p / m * x ≤ p / m * m := mul_le_mul_of_nonneg_left h (div_nonneg hp hm.le)
    _ = p := div_mul_cancel₀ p hm.ne'

theorem le_flatW {p m x : ℚ} (hp : 0 ≤ p) (hm : 0 < m) (h : m ≤ x) : p ≤ p / m * x := by
  calc p = p / m * m := (div_mul_cancel₀ p hm.ne').symm
    _ ≤ p / m * x := mul_le_mul_of_nonneg_left h (div_nonneg hp hm.le)

theorem seg_lb {pa pb A B n : ℚ} (hAn : A ≤ n) (hs : 0 ≤ (pb - pa) / (B - A)) :
    pa ≤ pa + (n - A) * ((pb - pa) / (B - A)) :=
  le_add_of_nonneg_right (mul_nonneg (sub_nonneg.mpr hAn) hs)

theorem seg_ub {pa pb A B n : ℚ} (hAB : A < B) (hnB : n ≤ B) (hpab : pa ≤ pb) :
    pa + (n - A) * ((pb - pa) / (B - A)) ≤ pb := by
  have hd : (0 : ℚ) < B - A := sub_pos.mpr hAB
  have hs : 0 ≤ (pb - pa) / (B - A) := div_nonneg (sub_nonneg.mpr hpab) hd.le
  have h1 : (n - A) * ((pb - pa) / (B - A)) ≤ (B - A) * ((pb - pa) / (B - A)) :=
    mul_le_mul_of_nonneg_right (by linarith) hs
  have h2 : (B - A) * ((pb - pa) / (B - A)) = pb - pa := by
    field_simp
  linarith

theorem seg_mono {pa pb A B n1 n2 : ℚ} (h12 : n1 ≤ n2) (hs : 0 ≤ (pb - pa) / (B - A)) :
    pa + (n1 - A) * ((pb - pa) / (B - A)) ≤ pa + (n2 - A) * ((pb - pa) / (B - A)) := by
  have := mul_le_mul_of_nonneg_right (sub_le_sub_right h12 A) hs
  linarith

/-- Monotonicity of the estimator in the target module count, over a
three-row exact-kW band with increasing module counts and increasing
prices. -/
theorem band3_mono {filtered : List ModelRow} {kw : ℚ} {a b c : ModelRow}
    (hsame : filtered.filter (fun r => decide (r.model.kW = kw)) = [a, b, c])
    (h1a : 1 ≤ a.modules) (hab : a.modules < b.modules) (hbc : b.modules < c.modules)
    (hpa : 0 < a.model.price_without_tariff)
    (hpab : a.model.price_without_tariff ≤ b.model.price_without_tariff)
    (hpbc : b.model.price_without_tariff ≤ c.model.price_without_tariff)
    {n1 n2 : ℤ} (hn1 : 1 ≤ n1) (h12 : n1 ≤ n2) :
    (without_tariff_estimated filtered kw n1).1 ≤
      (without_tariff_estimated filtered kw n2).1 := by
  have hA : (0 : ℚ) < (a.modules : ℚ) := by exact_mod_cast lt_of_lt_of_le Int.one_pos h1a
  have hB : (0 : ℚ) < (b.modules : ℚ) := by
    exact_mod_cast lt_of_lt_of_le Int.one_pos (le_trans h1a hab.le)
  have hC : (0 : ℚ) < (c.modules : ℚ) := by
    exact_mod_cast lt_of_lt_of_le Int.one_pos (le_trans h1a (le_trans hab.le hbc.le))
  have hABq : (a.modules : ℚ) < (b.modules : ℚ) := by exact_mod_cast hab
  have hBCq : (b.modules : ℚ) < (c.modules : ℚ) := by exact_mod_cast hbc
  have hpb : 0 < b.model.price_without_tariff := lt_of_lt_of_le hpa hpab
  have hpc : 0 < c.model.price_without_tariff := lt_of_lt_of_le hpb hpbc
  have hs1 : 0 ≤ (b.model.price_without_tariff - a.model.price_without_tariff) /
      ((b.modules : ℚ) - (a.modules : ℚ)) :=
    div_nonneg (sub_nonneg.mpr hpab) (sub_pos.mpr hABq).le
  have hs2 : 0 ≤ (c.model.price_without_tariff - b.model.price_without_tariff) /
      ((c.modules : ℚ) - (b.modules : ℚ)) :=
    div_nonneg (sub_nonneg.mpr hpbc) (sub_pos.mpr hBCq).le
  have h12q : (n1 : ℚ) ≤ (n2 : ℚ) := by exact_mod_cast h12
  rcases le_or_lt n1 a.modules with r1a | r1a
  · have w1 := band3_W_low hsame hab hbc r1a
    have hn1A : (n1 : ℚ) ≤ (a.modules : ℚ) := by exact_mod_cast r1a
    have hW1pa : (without_tariff_estimated filtered kw n1).1 ≤ a.model.price_without_tariff := by
      rw [w1]
      exact flatW_le hpa.le hA hn1A
    rcases le_or_lt n2 a.modules with r2a | r2a
    · rw [w1, band3_W_low hsame hab hbc r2a]
      exact flatW_mono hpa.le hA h12q
    · rcases le_or_lt n2 b.modules with r2b | r2b
      · rw [band3_W_seg1 hsame hab hbc r2a r2b]
        push_cast
        refine le_trans hW1pa (seg_lb ?_ hs1)
        exact_mod_cast r2a.le
      · rcases le_or_lt n2 c.modules with r2c | r2c
        · rw [band3_W_seg2 hsame hab hbc r2b r2c]
          push_cast
          refine le_trans hW1pa (le_trans hpab (seg_lb ?_ hs2))
          exact_mod_cast r2b.le
        · rw [band3_W_high hsame hab hbc r2c]
          have hn2C : (c.modules : ℚ) ≤ (n2 : ℚ) := by exact_mod_cast r2c.le
          exact le_trans hW1pa (le_trans hpab (le_trans hpbc (le_flatW hpc.le hC hn2C)))
  · have r2a : a.modules < n2 := lt_of_lt_of_le r1a h12
    rcases le_or_lt n1 b.modules with r1b | r1b
    · have w1 := band3_W_seg1 hsame hab hbc r1a r1b
      have hW1pb : (without_tariff_estimated filtered kw n1).1 ≤
          b.model.price_without_tariff := by
        rw [w1]
        push_cast
        exact seg_ub hABq (by exact_mod_cast r1b) hpab
      rcases le_or_lt n2 b.modules with r2b | r2b
      · rw [w1, band3_W_seg1 hsame hab hbc r2a r2b]
        push_cast
        exact seg_mono h12q hs1
      · rcases le_or_lt n2 c.modules with r2c | r2c
        · rw [band3_W_seg2 hsame hab hbc r2b r2c]
          push_cast
          refine le_trans hW1pb (seg_lb ?_ hs2)
          exact_mod_cast r2b.le
        · rw [band3_W_high hsame hab hbc r2c]
          have hn2C : (c.modules : ℚ) ≤ (n2 : ℚ) := by exact_mod_cast r2c.le
          exact le_trans hW1pb (le_trans hpbc (le_flatW hpc.le hC hn2C))
    · have r2b : b.modules < n2 := lt_of_lt_of_le r1b h12
      rcases le_or_lt n1 c.modules with r1c | r1c
      · have w1 := band3_W_seg2 hsame hab hbc r1b r1c
        have hW1pc : (without_tariff_estimated filtered kw n1).1 ≤
            c.model.price_without_tariff := by
          rw [w1]
          push_cast
          exact seg_ub hBCq (by exact_mod_cast r1c) hpbc
        rcases le_or_lt n2 c.modules with r2c | r2c
        · rw [w1, band3_W_seg2 hsame hab hbc r2b r2c]
          push_cast
          exact seg_mono h12q hs2
        · rw [band3_W_high hsame hab hbc r2c]
          have hn2C : (c.modules : ℚ) ≤ (n2 : ℚ) := by exact_mod_cast r2c.le
          exact le_trans hW1pc (le_flatW hpc.le hC hn2C)
      · have r2c : c.modules < n2 := lt_of_lt_of_le r1c h12
        rw [band3_W_high hsame hab hbc r1c, band3_W_high hsame hab hbc r2c]
        exact flatW_mono hpc.le hC h12q

/-! The five exact-kW bands of the fixed catalog, annotated at module size
10.24, and the estimator value at each catalog row's own module count. -/

theorem hsame_208_30 : (with_modules 10.24 (voltage_filter get_battery_data 208)).filter
    (fun r => decide (r.model.kW = 30)) =
    [ ⟨⟨208, 30, 81, 2.7, 90000, 54700⟩, 8⟩,
      ⟨⟨208, 30, 122, 4.1, 105100, 63000⟩, 12⟩,
      ⟨⟨208, 30, 184, 6.1, 133300, 78400⟩, 18⟩ ] := by
  rw [filter208, ann208L]
  norm_num [List.filter_cons, decide_eq_true_eq]

theorem hsame_208_50 : (with_modules 10.24 (voltage_filter get_battery_data 208)).filter
    (fun r => decide (r.model.kW = 50)) =
    [ ⟨⟨208, 50, 122, 2.4, 123000, 71400⟩, 12⟩,
      ⟨⟨208, 50, 184, 3.7, 151300, 86800⟩, 18⟩,
      ⟨⟨208, 50, 245, 4.9, 173900, 99100⟩, 24⟩ ] := by
  rw [filter208, ann208L]
  norm_num [List.filter_cons, decide_eq_true_eq]

theorem hsame_480_30 : (with_modules 10.24 (voltage_filter get_battery_data 480)).filter
    (fun r => decide (r.model.kW = 30)) =
    [ ⟨⟨480, 30, 81, 2.7, 90000, 54700⟩, 8⟩,
      ⟨⟨480, 30, 122, 4.1, 105100, 63000⟩, 12⟩,
      ⟨⟨480, 30, 184, 6.1, 133300, 78400⟩, 18⟩ ] := by
  rw [filter480, ann480L]
  norm_num [List.filter_cons, decide_eq_true_eq]

theorem hsame_480_60 : (with_modules 10.24 (voltage_filter get_battery_data 480)).filter
    (fun r => decide (r.model.kW = 60)) =
    [ ⟨⟨480, 60, 122, 2.0, 123000, 71400⟩, 12⟩,
      ⟨⟨480, 60, 184, 3.1, 151300, 86800⟩, 18⟩,
      ⟨⟨480, 60, 245, 4.1, 173900, 99100⟩, 24⟩ ] := by
  rw [filter480, ann480L]
  norm_num [List.filter_cons, decide_eq_true_eq]

theorem hsame_480_90 : (with_modules 10.24 (voltage_filter get_battery_data 480)).filter
    (fun r => decide (r.model.kW = 90)) =
    [ ⟨⟨480, 90, 184, 2.0, 166800, 95300⟩, 18⟩,
      ⟨⟨480, 90, 245, 2.7, 189500, 107600⟩, 24⟩,
      ⟨⟨480, 90, 266, 3.0, 197000, 111700⟩, 26⟩ ] := by
  rw [filter480, ann480L]
  norm_num [List.filter_cons, decide_eq_true_eq]

/-- The without-tariff field of any `ok` result is the estimator value at the
annotated voltage subset. -/
theorem ok_without_tariff {battery_df : List BatteryModel}
    {voltage kw kwh hours module_size tariff_percentage : ℚ} {include_tariff : Bool}
    {e : PriceEstimates}
    (h : interpolate_price battery_df voltage kw kwh hours include_tariff module_size
      tariff_percentage = .ok e) :
    e.without_tariff = (without_tariff_estimated
      (with_modules module_size (voltage_filter battery_df voltage)) kw
      ⌈kwh / module_size⌉).1 := by
  cases include_tariff <;>
    simp only [interpolate_price, Bool.false_eq_true, if_false, if_true] at h <;>
    split at h
  · exact Except.noConfusion h
  · injection h with h
    subst h
    rfl
  · exact Except.noConfusion h
  · injection h with h
    subst h
    rfl

/-- C8 (amended): holding voltage, hours, module size 10.24 and tariff
settings fixed, and with the query's power equal to the power rating of some
catalog row at that voltage (so the band is a single exact-kW group),
increasing the energy never decreases the without-tariff estimate on the
fixed catalog. -/
theorem c8_monotone_exact_kw (voltage kw kwh1 kwh2 hours tariff_percentage : ℚ)
    (include_tariff : Bool) (e1 e2 : PriceEstimates)
    (hexact : ∃ row ∈ get_battery_data, row.voltage = voltage ∧ row.kW = kw)
    (hkwh1 : 0 < kwh1) (h12 : kwh1 ≤ kwh2) (hhours : 0 < hours)
    (he1 : interpolate_price get_battery_data voltage kw kwh1 hours include_tariff 10.24
      tariff_percentage = .ok e1)
    (he2 : interpolate_price get_battery_data voltage kw kwh2 hours include_tariff 10.24
      tariff_percentage = .ok e2) :
    e1.without_tariff ≤ e2.without_tariff := by
  have hms : (0 : ℚ) < 10.24 := by norm_num
  have hn1 : 1 ≤ ⌈kwh1 / (10.24 : ℚ)⌉ := by
    have := Int.ceil_pos.mpr (div_pos hkwh1 hms)
    omega
  have hnle : ⌈kwh1 / (10.24 : ℚ)⌉ ≤ ⌈kwh2 / (10.24 : ℚ)⌉ :=
    Int.ceil_mono (by apply div_le_div_of_nonneg_right h12 hms.le)
  rw [ok_without_tariff he1, ok_without_tariff he2]
  obtain ⟨row, hrow, hv, hk⟩ := hexact
  subst hv
  subst hk
  simp only [get_battery_data, List.mem_cons, List.not_mem_nil, or_false] at hrow
  have q30a : (1 : ℤ) ≤ 8 := by norm_num
  have q30b : (8 : ℤ) < 12 := by norm_num
  have q30c : (12 : ℤ) < 18 := by norm_num
  have p30a : (0 : ℚ) < 54700 := by norm_num
  have p30b : (54700 : ℚ) ≤ 63000 := by norm_num
  have p30c : (63000 : ℚ) ≤ 78400 := by norm_num
  have q50a : (1 : ℤ) ≤ 12 := by norm_num
  have q50b : (12 : ℤ) < 18 := by norm_num
  have q50c : (18 : ℤ) < 24 := by norm_num
  have p50a : (0 : ℚ) < 71400 := by norm_num
  have p50b : (71400 : ℚ) ≤ 86800 := by norm_num
  have p50c : (86800 : ℚ) ≤ 99100 := by norm_num
  have q90a : (1 : ℤ) ≤ 18 := by norm_num
  have q90b : (18 : ℤ) < 24 := by norm_num
  have q90c : (24 : ℤ) < 26 := by norm_num
  have p90a : (0 : ℚ) < 95300 := by norm_num
  have p90b : (95300 : ℚ) ≤ 107600 := by norm_num
  have p90c : (107600 : ℚ) ≤ 111700 := by norm_num
  rcases hrow with rfl | rfl | rfl | rfl | rfl | rfl | rfl | rfl | rfl | rfl | rfl | rfl |
    rfl | rfl | rfl
  · exact band3_mono hsame_208_30 q30a q30b q30c p30a p30b p30c hn1 hnle
  · exact band3_mono hsame_208_30 q30a q30b q30c p30a p30b p30c hn1 hnle
  · exact band3_mono hsame_208_30 q30a q30b q30c p30a p30b p30c hn1 hnle
  · exact band3_mono hsame_208_50 q50a q50b q50c p50a p50b p50c hn1 hnle
  · exact band3_mono hsame_208_50 q50a q50b q50c p50a p50b p50c hn1 hnle
  · exact band3_mono hsame_208_50 q50a q50b q50c p50a p50b p50c hn1 hnle
  · exact band3_mono hsame_480_30 q30a q30b q30c p30a p30b p30c hn1 hnle
  · exact band3_mono hsame_480_30 q30a q30b q30c p30a p30b p30c hn1 hnle
  · exact band3_mono hsame_480_30 q30a q30b q30c p30a p30b p30c hn1 hnle
  · exact band3_mono hsame_480_60 q50a q50b q50c p50a p50b p50c hn1 hnle
  · exact band3_mono hsame_480_60 q50a q50b q50c p50a p50b p50c hn1 hnle
  · exact band3_mono hsame_480_60 q50a q50b q50c p50a p50b p50c hn1 hnle
  · exact band3_mono hsame_480_90 q90a q90b q90c p90a p90b p90c hn1 hnle
  · exact band3_mono hsame_480_90 q90a q90b q90c p90a p90b p90c hn1 hnle
  · exact band3_mono hsame_480_90 q90a q90b q90c p90a p90b p90c hn1 hnle

/-- C8 (amended) witness: the amended theorem applied at voltage 480, power
30 (a catalog rating), energies 100 and 122 kWh. -/
theorem c8_monotone_exact_kw_witness :
    ∃ e1 e2 : PriceEstimates,
      interpolate_price get_battery_data 480 30 100 (100 / 30) true 10.24 73.8 = .ok e1 ∧
      interpolate_price get_battery_data 480 30 122 (100 / 30) true 10.24 73.8 = .ok e2 ∧
      e1.without_tariff ≤ e2.without_tariff := by
  refine ⟨_, _, rfl, rfl, c8_monotone_exact_kw 480 30 100 122 (100 / 30) 73.8 true _ _
    ⟨⟨480, 30, 81, 2.7, 90000, 54700⟩, by simp [get_battery_data], rfl, rfl⟩
    (by norm_num) (by norm_num) (by norm_num) rfl rfl⟩

/-! Interpolation at a bracket endpoint is lossless: the estimator at a row's
own module count returns that row's price. -/

theorem band3_W_at_a {filtered : List ModelRow} {kw : ℚ} {a b c : ModelRow}
    (hsame : filtered.filter (fun r => decide (r.model.kW = kw)) = [a, b, c])
    (h1a : 1 ≤ a.modules) (hab : a.modules < b.modules) (hbc : b.modules < c.modules) :
    (without_tariff_estimated filtered kw a.modules).1 = a.model.price_without_tariff := by
  rw [band3_W_low hsame hab hbc (le_refl _)]
  have hA : ((a.modules : ℚ)) ≠ 0 := by
    have h0 : (0 : ℤ) < a.modules := lt_of_lt_of_le Int.one_pos h1a
    exact_mod_cast h0.ne'
  exact div_mul_cancel₀ _ hA

theorem band3_W_at_b {filtered : List ModelRow} {kw : ℚ} {a b c : ModelRow}
    (hsame : filtered.filter (fun r => decide (r.model.kW = kw)) = [a, b, c])
    (hab : a.modules < b.modules) (hbc : b.modules < c.modules) :
    (without_tariff_estimated filtered kw b.modules).1 = b.model.price_without_tariff := by
  rw [band3_W_seg1 hsame hab hbc hab (le_refl _)]
  have hne : ((b.modules - a.modules : ℤ) : ℚ) ≠ 0 := by
    have h0 : (0 : ℤ) < b.modules - a.modules := sub_pos.mpr hab
    exact_mod_cast h0.ne'
  push_cast at hne ⊢
  rw [← mul_div_assoc, mul_div_cancel_left₀ _ hne]
  ring

theorem band3_W_at_c {filtered : List ModelRow} {kw : ℚ} {a b c : ModelRow}
    (hsame : filtered.filter (fun r => decide (r.model.kW = kw)) = [a, b, c])
    (hab : a.modules < b.modules) (hbc : b.modules < c.modules) :
    (without_tariff_estimated filtered kw c.modules).1 = c.model.price_without_tariff := by
  rw [band3_W_seg2 hsame hab hbc hbc (le_refl _)]
  have hne : ((c.modules - b.modules : ℤ) : ℚ) ≠ 0 := by
    have h0 : (0 : ℤ) < c.modules - b.modules := sub_pos.mpr hbc
    exact_mod_cast h0.ne'
  push_cast at hne ⊢
  rw [← mul_div_assoc, mul_div_cancel_left₀ _ hne]
  ring

theorem West_208_30_8 : (without_tariff_estimated
    (with_modules 10.24 (voltage_filter get_battery_data 208)) 30 8).1 = 54700 := by
  simpa using band3_W_at_a hsame_208_30 (by norm_num) (by norm_num) (by norm_num)

theorem West_208_30_12 : (without_tariff_estimated
    (with_modules 10.24 (voltage_filter get_battery_data 208)) 30 12).1 = 63000 := by
  simpa using band3_W_at_b hsame_208_30 (by norm_num) (by norm_num)

theorem West_208_30_18 : (without_tariff_estimated
    (with_modules 10.24 (voltage_filter get_battery_data 208)) 30 18).1 = 78400 := by
  simpa using band3_W_at_c hsame_208_30 (by norm_num) (by norm_num)

theorem West_208_50_12 : (without_tariff_estimated
    (with_modules 10.24 (voltage_filter get_battery_data 208)) 50 12).1 = 71400 := by
  simpa using band3_W_at_a hsame_208_50 (by norm_num) (by norm_num) (by norm_num)

theorem West_208_50_18 : (without_tariff_estimated
    (with_modules 10.24 (voltage_filter get_battery_data 208)) 50 18).1 = 86800 := by
  simpa using band3_W_at_b hsame_208_50 (by norm_num) (by norm_num)

theorem West_208_50_24 : (without_tariff_estimated
    (with_modules 10.24 (voltage_filter get_battery_data 208)) 50 24).1 = 99100 := by
  simpa using band3_W_at_c hsame_208_50 (by norm_num) (by norm_num)

theorem West_480_30_8 : (without_tariff_estimated
    (with_modules 10.24 (voltage_filter get_battery_data 480)) 30 8).1 = 54700 := by
  simpa using band3_W_at_a hsame_480_30 (by norm_num) (by norm_num) (by norm_num)

theorem West_480_30_12 : (without_tariff_estimated
    (with_modules 10.24 (voltage_filter get_battery_data 480)) 30 12).1 = 63000 := by
  simpa using band3_W_at_b hsame_480_30 (by norm_num) (by norm_num)

theorem West_480_30_18 : (without_tariff_estimated
    (with_modules 10.24 (voltage_filter get_battery_data 480)) 30 18).1 = 78400 := by
  simpa using band3_W_at_c hsame_480_30 (by norm_num) (by norm_num)

theorem West_480_60_12 : (without_tariff_estimated
    (with_modules 10.24 (voltage_filter get_battery_data 480)) 60 12).1 = 71400 := by
  simpa using band3_W_at_a hsame_480_60 (by norm_num) (by norm_num) (by norm_num)

theorem West_480_60_18 : (without_tariff_estimated
    (with_modules 10.24 (voltage_filter get_battery_data 480)) 60 18).1 = 86800 := by
  simpa using band3_W_at_b hsame_480_60 (by norm_num) (by norm_num)

theorem West_480_60_24 : (without_tariff_estimated
    (with_modules 10.24 (voltage_filter get_battery_data 480)) 60 24).1 = 99100 := by
  simpa using band3_W_at_c hsame_480_60 (by norm_num) (by norm_num)

theorem West_480_90_18 : (without_tariff_estimated
    (with_modules 10.24 (voltage_filter get_battery_data 480)) 90 18).1 = 95300 := by
  simpa using band3_W_at_a hsame_480_90 (by norm_num) (by norm_num) (by norm_num)

theorem West_480_90_24 : (without_tariff_estimated
    (with_modules 10.24 (voltage_filter get_battery_data 480)) 90 24).1 = 107600 := by
  simpa using band3_W_at_b hsame_480_90 (by norm_num) (by norm_num)

theorem West_480_90_26 : (without_tariff_estimated
    (with_modules 10.24 (voltage_filter get_battery_data 480)) 90 26).1 = 111700 := by
  simpa using band3_W_at_c hsame_480_90 (by norm_num) (by norm_num)

theorem filter208_isEmpty : (voltage_filter get_battery_data 208).isEmpty = false := by
  rw [filter208]
  rfl

theorem filter480_isEmpty : (voltage_filter get_battery_data 480).isEmpty = false := by
  rw [filter480]
  rfl

/-- C3: a query that coincides with a catalog row (same voltage, kW, kWh, at
the application's module size 10.24) receives exactly that row's
`price_without_tariff` as the without-tariff estimate, for any hours and any
tariff settings — interpolation at a bracket endpoint is lossless. -/
theorem c3_exact_match (row : BatteryModel) (hrow : row ∈ get_battery_data)
    (hours tariff_percentage : ℚ) (include_tariff : Bool) :
    (interpolate_price get_battery_data row.voltage row.kW row.kWh hours include_tariff 10.24
      tariff_percentage).toOption.map (fun e => e.without_tariff) =
      some row.price_without_tariff := by
  simp only [get_battery_data, List.mem_cons, List.not_mem_nil, or_false] at hrow
  rcases hrow with rfl | rfl | rfl | rfl | rfl | rfl | rfl | rfl | rfl | rfl | rfl | rfl |
    rfl | rfl | rfl <;> cases include_tariff <;>
    simp [interpolate_price, filter208_isEmpty, filter480_isEmpty, ceil81, ceil122, ceil184,
      ceil245, ceil266, Except.toOption, West_208_30_8, West_208_30_12, West_208_30_18,
      West_208_50_12, West_208_50_18, West_208_50_24, West_480_30_8, West_480_30_12,
      West_480_30_18, West_480_60_12, West_480_60_18, West_480_60_24, West_480_90_18,
      West_480_90_24, West_480_90_26]

/-- C3 witness: the theorem applied to the 480-V, 30-kW, 81-kWh catalog row,
whose price without tariff is 54700. -/
theorem c3_exact_match_witness :
    (interpolate_price get_battery_data 480 30 81 2.7 true 10.24 73.8).toOption.map
      (fun e => e.without_tariff) = some 54700 := by
  have h := c3_exact_match ⟨480, 30, 81, 2.7, 90000, 54700⟩ (by simp [get_battery_data])
    2.7 73.8 true
  simpa using h

end BatteryPricePro
